import Mathlib

set_option autoImplicit false

/-!
Shallow embedding of `src/src/components/VideoFrameSelector.tsx`.

The component keeps React state `duration`, `currentTime`, `loading`, `error`,
plus a hidden `<video>` element and a `<canvas>`.  Two pieces of behaviour are
embedded as explicit state machines over event traces:

* the seek machine (`seekStep` / `seekRun`): the slider handler
  `handleSliderChange` (source lines 120-141) together with the environment
  events it reacts to — the video element firing `seeked`, and each request's
  500 ms fallback `setTimeout` firing;
* the load machine (`loadStep` / `loadRun`): the initialisation effect
  (source lines 44-98) — `loadedmetadata`, `error`, the 100 ms initial-capture
  timeout and the 10 s load-timeout fallback.

`captureFrame` (source lines 100-118) is embedded as a pure function from the
capture environment (whether `getContext` succeeds, the video's native raster
dimensions, whether the `onFrameSelect` callback throws when invoked) and the
canvas state to the new canvas state plus the list of `onFrameSelect`
invocations; its surrounding `try`/`catch` is the projection that discards the
exception component of `captureFrameTry`.

Timestamps are modelled as `ℚ` (the source uses IEEE doubles; none of the
claims depend on rounding).  Each event in a trace carries the wall-clock time
at which it occurs, so that the 500 ms fallback delay is expressible.
-/

namespace VideoFrameSelector

/-- Environment of a single capture attempt: whether `canvas.getContext` returns
a context, the video's native raster dimensions (`videoWidth`/`videoHeight`),
and whether the caller-supplied `onFrameSelect` callback throws when invoked. -/
structure CaptureEnv where
  ctxAvailable : Bool
  videoWidth : Nat
  videoHeight : Nat
  callbackThrows : Bool
  deriving DecidableEq, Repr

/-- The mutable state of the `<canvas>` element: its dimensions, plus a count of
how many times the dimension assignments `c.width = v.videoWidth;
c.height = v.videoHeight` (source lines 108-109) have been executed. -/
structure CanvasState where
  width : Nat
  height : Nat
  resizes : Nat
  deriving DecidableEq, Repr

/-- A fresh HTML canvas as created by `document.createElement('canvas')`
(source line 31): default dimensions 300 x 150, no resize performed yet. -/
def initCanvas : CanvasState :=
  { width := 300, height := 150, resizes := 0 }

/-- One `onFrameSelect` invocation observed by the caller, tagged with the
request that produced it and the wall-clock time at which it fired.  The data
the caller actually receives is `(dataUrl, timestamp)`; `reqId` and `firedAt`
are trace bookkeeping. -/
structure Delivery where
  reqId : Nat
  firedAt : ℚ
  timestamp : ℚ
  deriving DecidableEq, Repr

/-- The body of `captureFrame`'s `try` block (source lines 102-114).  Returns
the canvas state, the list of `onFrameSelect` invocations (their timestamps),
and `some msg` when an exception escapes the block.  If `getContext` returns
null the function logs and returns early (no resize, no invocation, no
exception).  Otherwise it resizes the canvas to the native dimensions, draws,
encodes, and invokes `onFrameSelect(dataUrl, time)`; if that callback throws,
the invocation has already happened and the exception escapes the block. -/
def captureFrameTry (env : CaptureEnv) (time : ℚ) (c : CanvasState) :
    CanvasState × List ℚ × Option String :=
  if env.ctxAvailable then
    let c2 : CanvasState :=
      { width := env.videoWidth, height := env.videoHeight, resizes := c.resizes + 1 }
    if env.callbackThrows then
      (c2, [time], some "onFrameSelect threw")
    else
      (c2, [time], none)
  else
    (c, [], none)

/-- `captureFrame` (source lines 100-118): the `try` block wrapped in
`catch (err) { console.error(...) }` — any exception is swallowed, so the
result is the canvas state and invocation list of the body with the exception
component discarded. -/
def captureFrame (env : CaptureEnv) (time : ℚ) (c : CanvasState) :
    CanvasState × List ℚ :=
  ((captureFrameTry env time c).1, (captureFrameTry env time c).2.1)

/-- Events the seek machinery reacts to once the video is loaded: a slider
change (`handleSliderChange` with parsed value `t`), the video element firing
`seeked`, and the firing of the 500 ms fallback timeout that request `id`
scheduled. -/
inductive SeekEvent
  | request (t : ℚ)
  | seeked
  | fireTimeout (id : Nat)
  deriving DecidableEq, Repr

/-- An event together with the wall-clock time (ms) at which it occurs. -/
structure TimedEvent where
  time : ℚ
  ev : SeekEvent
  deriving DecidableEq, Repr

/-- State of the component while the slider is live.  `listeners` holds the
pending one-shot `seeked` listeners in registration order, each identified by
the request that registered it and carrying that request's closure-captured
`time`; `timeouts` holds the pending 500 ms fallback timeouts as
`(requestId, closure time, due time)`.  `nextId` numbers requests in order of
arrival (trace bookkeeping: the source identifies a listener by the closure
object `handleSeeked`, one per `handleSliderChange` call).  `loading` and
`error` are the session-status fields; no code path of the slider handler or
of `captureFrame` writes them. -/
structure SessionState where
  currentTime : ℚ
  duration : ℚ
  loading : Bool
  error : Option String
  nextId : Nat
  listeners : List (Nat × ℚ)
  timeouts : List (Nat × ℚ × ℚ)
  canvas : CanvasState
  delivered : List Delivery
  deriving DecidableEq, Repr

/-- Dispatch of a `seeked` DOM event at wall-clock time `now`: every registered
one-shot listener fires in registration order (each was added with
`{ once: true }`, so all of them are removed by the dispatch); the body of each
listener is `captureFrame(time, video, canvas)` with its own closure-captured
`time` (source lines 129-132).  Returns the canvas state after all the capture
calls and the `onFrameSelect` invocations they produced. -/
def dispatchSeeked (env : CaptureEnv) (now : ℚ) :
    List (Nat × ℚ) → CanvasState → CanvasState × List Delivery
  | [], c => (c, [])
  | l :: rest, c =>
      let r := captureFrame env l.2 c
      let out := dispatchSeeked env now rest r.1
      (out.1, r.2.map (fun ts => ⟨l.1, now, ts⟩) ++ out.2)

/-- One step of the seek machine.

* `request t` — `handleSliderChange` (source lines 120-141): sets
  `currentTime := t` (no clamping), commands `video.currentTime = t`, registers
  a one-shot `seeked` listener capturing `t`, and schedules a fallback timeout
  500 ms from now.  Nothing ever clears this timeout.
* `seeked` — the video element fires `seeked`: every pending one-shot listener
  fires and is removed (see `dispatchSeeked`).
* `fireTimeout id` — the fallback timeout of request `id` fires (only possible
  while it is still pending): it removes that request's `seeked` listener, if
  still registered, and unconditionally calls `captureFrame` with the
  closure-captured `time` (source lines 137-140). -/
def seekStep (env : CaptureEnv) (s : SessionState) (e : TimedEvent) : SessionState :=
  match e.ev with
  | .request t =>
      { s with
        currentTime := t
        nextId := s.nextId + 1
        listeners := s.listeners ++ [(s.nextId, t)]
        timeouts := s.timeouts ++ [(s.nextId, t, e.time + 500)] }
  | .seeked =>
      let out := dispatchSeeked env e.time s.listeners s.canvas
      { s with listeners := [], canvas := out.1, delivered := s.delivered ++ out.2 }
  | .fireTimeout id =>
      match s.timeouts.find? (fun q => q.1 = id) with
      | some q =>
          let r := captureFrame env q.2.1 s.canvas
          { s with
            timeouts := s.timeouts.filter (fun q2 => q2.1 ≠ id)
            listeners := s.listeners.filter (fun l => l.1 ≠ id)
            canvas := r.1
            delivered := s.delivered ++ r.2.map (fun ts => ⟨id, e.time, ts⟩) }
      | none => s

/-- The session just after a successful load of a `dur`-second video,
positioned at `t0`: no pending listeners or timeouts, fresh canvas, nothing
delivered yet. -/
def initSession (t0 dur : ℚ) : SessionState :=
  { currentTime := t0, duration := dur, loading := false, error := none, nextId := 0,
    listeners := [], timeouts := [], canvas := initCanvas, delivered := [] }

/-- Run the seek machine from `initSession t0 dur` over a trace of timed
events. -/
def seekRun (env : CaptureEnv) (t0 dur : ℚ) (tr : List TimedEvent) : SessionState :=
  tr.foldl (seekStep env) (initSession t0 dur)

/-- A benign capture environment: the 2d context is available, the source is
640 x 360, and the caller's callback does not throw. -/
def okEnv : CaptureEnv :=
  { ctxAvailable := true, videoWidth := 640, videoHeight := 360, callbackThrows := false }

/-- A capture environment whose `getContext` call fails (no 2d context). -/
def noCtxEnv : CaptureEnv :=
  { ctxAvailable := false, videoWidth := 640, videoHeight := 360, callbackThrows := false }

/-- The same capture environment with a callback that does not throw. -/
def noThrowEnv (env : CaptureEnv) : CaptureEnv :=
  { env with callbackThrows := false }

/-- A capture environment whose `onFrameSelect` callback throws when invoked. -/
def throwEnv : CaptureEnv :=
  { ctxAvailable := true, videoWidth := 640, videoHeight := 360, callbackThrows := true }

/-- Number of deliveries attributed to request `i`. -/
def delCount (i : Nat) (ds : List Delivery) : Nat :=
  ds.countP (fun d => d.reqId = i)

/-- Number of pending `seeked` listeners registered by request `i`. -/
def lisCount (i : Nat) (ls : List (Nat × ℚ)) : Nat :=
  ls.countP (fun l => l.1 = i)

/-- Number of pending fallback timeouts scheduled by request `i`. -/
def toCount (i : Nat) (ts : List (Nat × ℚ × ℚ)) : Nat :=
  ts.countP (fun q => q.1 = i)

/-- The per-request accounting invariant of the seek machine: the deliveries
already attributed to request `i`, plus its pending listener and pending
timeout, never exceed two; and a request that has not been issued yet has
nothing attributed and nothing pending. -/
def ReqBound (i : Nat) (s : SessionState) : Prop :=
  delCount i s.delivered + lisCount i s.listeners + toCount i s.timeouts ≤ 2
  ∧ (s.nextId ≤ i →
      delCount i s.delivered = 0 ∧ lisCount i s.listeners = 0 ∧ toCount i s.timeouts = 0)

/-- Every pending fallback timeout was scheduled by an already-issued request. -/
def IdsBounded (s : SessionState) : Prop :=
  ∀ q ∈ s.timeouts, q.1 < s.nextId

/-- Request `i`'s fallback timeout, with closure time `t` and due time `dueAt`,
is pending, and it is the only pending timeout of request `i`. -/
def TimeoutPending (i : Nat) (t dueAt : ℚ) (s : SessionState) : Prop :=
  (i, t, dueAt) ∈ s.timeouts
  ∧ (∀ q ∈ s.timeouts, q.1 = i → q = (i, t, dueAt))
  ∧ i < s.nextId

/-- The canvas bookkeeping invariant: the dimension assignments have been
executed exactly once per delivered capture, and once anything has been
delivered the canvas holds the source's native dimensions. -/
def CanvasSync (env : CaptureEnv) (s : SessionState) : Prop :=
  s.canvas.resizes = s.delivered.length
  ∧ (s.delivered ≠ [] →
      s.canvas.width = env.videoWidth ∧ s.canvas.height = env.videoHeight)


/-- The message set by the `error`-event handler (source line 71). -/
def loadFailMsg : String := "Failed to load video. Please try a different file."

/-- The message set by the 10 s load-timeout fallback (source line 81). -/
def loadTimeoutMsg : String := "Video took too long to load. Please try again."

/-- Events of the initialisation effect (source lines 44-98): the video element
firing `loadedmetadata` (with its `duration`), the video element firing
`error`, the 100 ms initial-capture timeout scheduled by the metadata handler,
and the 10 s load-timeout fallback. -/
inductive LoadEvent
  | loadedmetadata (dur : ℚ)
  | errorEvent
  | initialCapture
  | loadTimeout
  deriving DecidableEq, Repr

/-- State of the component during load.  `metaFired` / `errFired` record that
the corresponding `{ once: true }` listener has already been consumed;
`pendingInitialCapture` is `some t` while the 100 ms capture timeout scheduled
by `handleLoadedMetadata` is outstanding. -/
structure LoadState where
  loading : Bool
  error : Option String
  duration : ℚ
  currentTime : ℚ
  metaFired : Bool
  errFired : Bool
  pendingInitialCapture : Option ℚ
  canvas : CanvasState
  delivered : List ℚ
  deriving DecidableEq, Repr

/-- Component state when the initialisation effect starts (source lines 15-18
and 47-48): `loading := true`, `error := none`, `duration` and `currentTime`
from their `useState` initialisers (`currentTime` starts at
`selectedTimestamp ?? 0`). -/
def initLoad (sel : Option ℚ) : LoadState :=
  { loading := true, error := none, duration := 0, currentTime := sel.getD 0,
    metaFired := false, errFired := false, pendingInitialCapture := none,
    canvas := initCanvas, delivered := [] }

/-- One step of the load machine, parametrised by the component's
`selectedTimestamp` prop and by `capturedLoading`, the value of the `loading`
state variable that the effect's closure captured (on a first load it is
`true`).

* `loadedmetadata dur` — `handleLoadedMetadata` (source lines 54-67): records
  the duration, sets `currentTime` to `selectedTimestamp ?? 0` (no clamping),
  commands `video.currentTime` there, and schedules the initial capture 100 ms
  later.
* `errorEvent` — `handleError` (source lines 69-73): sets the failure message
  and ends loading.
* `initialCapture` — the 100 ms timeout body (source lines 63-66): captures at
  the recorded initial time and sets `loading := false`.
* `loadTimeout` — the 10 s fallback (source lines 79-84): its guard reads the
  closure-captured `loading`, not the current one. -/
def loadStep (env : CaptureEnv) (sel : Option ℚ) (capturedLoading : Bool)
    (s : LoadState) (e : LoadEvent) : LoadState :=
  match e with
  | .loadedmetadata dur =>
      if s.metaFired then s
      else
        { s with
          metaFired := true
          duration := dur
          currentTime := sel.getD 0
          pendingInitialCapture := some (sel.getD 0) }
  | .errorEvent =>
      if s.errFired then s
      else
        { s with errFired := true, error := some loadFailMsg, loading := false }
  | .initialCapture =>
      match s.pendingInitialCapture with
      | some t =>
          let r := captureFrame env t s.canvas
          { s with
            canvas := r.1
            delivered := s.delivered ++ r.2
            loading := false
            pendingInitialCapture := none }
      | none => s
  | .loadTimeout =>
      if capturedLoading then
        { s with error := some loadTimeoutMsg, loading := false }
      else s

/-- Run the load machine over a trace of load events. -/
def loadRun (env : CaptureEnv) (sel : Option ℚ) (capturedLoading : Bool)
    (tr : List LoadEvent) : LoadState :=
  tr.foldl (loadStep env sel capturedLoading) (initLoad sel)

/-- During a load with no metadata event, the initial capture is never
scheduled and nothing is delivered. -/
def LoadNoCapture (s : LoadState) : Prop :=
  s.pendingInitialCapture = none ∧ s.delivered = []

/-- Error bookkeeping of the load machine: the error field is absent or one of
the two messages the source can set, a consumed error listener implies a set
error, and a set error implies loading has ended. -/
def LoadErr (s : LoadState) : Prop :=
  (s.error = none ∨ s.error = some loadFailMsg ∨ s.error = some loadTimeoutMsg)
  ∧ (s.errFired = true → s.error ≠ none)
  ∧ (s.error ≠ none → s.loading = false)

/-- Characterisation of a single capture call: with a context it resizes the
canvas to the native dimensions and invokes `onFrameSelect` once with the
requested timestamp (whether or not the callback throws — the exception is
swallowed by the `catch`); without a context it is a no-op. -/
theorem captureFrame_eq (env : CaptureEnv) (time : ℚ) (c : CanvasState) :
    captureFrame env time c =
      if env.ctxAvailable then
        (⟨env.videoWidth, env.videoHeight, c.resizes + 1⟩, [time])
      else
        (c, []) := by
  rcases env with ⟨ctx, w, h, cbt⟩
  cases ctx <;> cases cbt <;> simp [captureFrame, captureFrameTry]

/-- A capture with a context resizes and delivers once. -/
theorem captureFrame_ctx (env : CaptureEnv) (time : ℚ) (c : CanvasState)
    (hctx : env.ctxAvailable = true) :
    captureFrame env time c
      = (⟨env.videoWidth, env.videoHeight, c.resizes + 1⟩, [time]) := by
  rw [captureFrame_eq, hctx]
  simp

/-- A capture without a context is a no-op. -/
theorem captureFrame_noCtx (env : CaptureEnv) (time : ℚ) (c : CanvasState)
    (hctx : env.ctxAvailable = false) :
    captureFrame env time c = (c, []) := by
  rw [captureFrame_eq, hctx]
  simp

/-- A `foldl` preserves any invariant preserved by each step. -/
theorem foldl_preserves {α β : Type} (f : α → β → α) (P : α → Prop)
    (h : ∀ a b, P a → P (f a b)) :
    ∀ (l : List β) (a : α), P a → P (l.foldl f a) := by
  intro l
  induction l with
  | nil => intro a ha; exact ha
  | cons b l ih => intro a ha; exact ih (f a b) (h a b ha)

/-- A `foldl` over a list of well-behaved inputs preserves an invariant
preserved by each step on such inputs. -/
theorem foldl_preserves_of_all {α β : Type} (f : α → β → α) (P : α → Prop) (Q : β → Prop)
    (h : ∀ a b, Q b → P a → P (f a b)) :
    ∀ (l : List β), (∀ b ∈ l, Q b) → ∀ (a : α), P a → P (l.foldl f a) := by
  intro l
  induction l with
  | nil => intro _ a ha; exact ha
  | cons b l ih =>
      intro hall a ha
      exact ih (fun b2 hb2 => hall b2 (List.mem_cons_of_mem _ hb2)) (f a b)
        (h a b (hall b (List.mem_cons_self _ _)) ha)

/-- Counting entries with key `i` after discarding the entries with key `id2`:
zero when `i = id2`, unchanged otherwise. -/
theorem countP_fst_filter_ne {α : Type} (f : α → Nat) (i id2 : Nat) (l : List α) :
    (l.filter (fun a => f a ≠ id2)).countP (fun a => f a = i)
      = if i = id2 then 0 else l.countP (fun a => f a = i) := by
  induction l with
  | nil => simp
  | cons a l ih =>
      by_cases hfa : f a = id2
      · have hdrop : (a :: l).filter (fun a => f a ≠ id2) = l.filter (fun a => f a ≠ id2) := by
          simp [List.filter_cons, hfa]
        rw [hdrop, ih]
        by_cases hi : i = id2
        · simp [hi]
        · have hne : ¬ f a = i := by omega
          simp [List.countP_cons, hi, hne]
      · have hkeep : (a :: l).filter (fun a => f a ≠ id2)
            = a :: l.filter (fun a => f a ≠ id2) := by
          simp [List.filter_cons, hfa]
        rw [hkeep, List.countP_cons, List.countP_cons, ih]
        by_cases hi : i = id2
        · have hne : ¬ f a = i := by omega
          simp [hi, hne, hfa]
        · simp [hi]

/-- The deliveries that one capture call contributes, tagged with request `j`,
count at most one towards request `i`, and zero when `j ≠ i`. -/
theorem captureFrame_tagged_delCount (env : CaptureEnv) (t now : ℚ) (c : CanvasState)
    (j i : Nat) :
    delCount i ((captureFrame env t c).2.map (fun ts => (⟨j, now, ts⟩ : Delivery)))
      ≤ if j = i then 1 else 0 := by
  rw [captureFrame_eq]
  by_cases hc : env.ctxAvailable <;> by_cases hj : j = i <;>
    simp [hc, hj, delCount, List.countP_cons]

/-- Dispatching a `seeked` event contributes at most one delivery per pending
listener of request `i`. -/
theorem dispatchSeeked_delCount (env : CaptureEnv) (now : ℚ) (i : Nat) :
    ∀ (ls : List (Nat × ℚ)) (c : CanvasState),
      delCount i (dispatchSeeked env now ls c).2 ≤ lisCount i ls := by
  intro ls
  induction ls with
  | nil => intro c; simp [dispatchSeeked, delCount]
  | cons l rest ih =>
      intro c
      have h1 := captureFrame_tagged_delCount env l.2 now c l.1 i
      have h2 := ih (captureFrame env l.2 c).1
      have hsplit : delCount i (dispatchSeeked env now (l :: rest) c).2
          = delCount i ((captureFrame env l.2 c).2.map (fun ts => (⟨l.1, now, ts⟩ : Delivery)))
            + delCount i (dispatchSeeked env now rest (captureFrame env l.2 c).1).2 := by
        simp only [dispatchSeeked]
        simp only [delCount, List.countP_append]
      have hcons : lisCount i (l :: rest) = (if l.1 = i then 1 else 0) + lisCount i rest := by
        by_cases hl : l.1 = i <;> simp [lisCount, List.countP_cons, hl, Nat.add_comm]
      rw [hsplit, hcons]
      by_cases hl : l.1 = i
      · rw [if_pos hl] at h1 ⊢
        omega
      · rw [if_neg hl] at h1 ⊢
        omega

/-- Each step of the seek machine preserves the per-request accounting
invariant. -/
theorem seekStep_reqBound (env : CaptureEnv) (i : Nat) (s : SessionState) (e : TimedEvent)
    (h : ReqBound i s) : ReqBound i (seekStep env s e) := by
  obtain ⟨h1, h2⟩ := h
  obtain ⟨time, ev⟩ := e
  cases ev with
  | request t =>
      have happ1 : lisCount i (s.listeners ++ [(s.nextId, t)])
          = lisCount i s.listeners + (if s.nextId = i then 1 else 0) := by
        by_cases hn : s.nextId = i <;>
          simp [lisCount, List.countP_append, List.countP_cons, hn]
      have happ2 : toCount i (s.timeouts ++ [(s.nextId, t, time + 500)])
          = toCount i s.timeouts + (if s.nextId = i then 1 else 0) := by
        by_cases hn : s.nextId = i <;>
          simp [toCount, List.countP_append, List.countP_cons, hn]
      constructor
      · simp only [seekStep, happ1, happ2]
        by_cases hn : s.nextId = i
        · obtain ⟨hd, hl, ht⟩ := h2 (le_of_eq hn)
          simp [hn] at happ1 happ2 ⊢
          omega
        · simp [hn]
          omega
      · intro hi
        simp only [seekStep] at hi ⊢
        have hni : ¬ s.nextId = i := by omega
        have hle : s.nextId ≤ i := by omega
        obtain ⟨hd, hl, ht⟩ := h2 hle
        simp only [happ1, happ2, hni, if_false]
        omega
  | seeked =>
      have hd := dispatchSeeked_delCount env time i s.listeners s.canvas
      constructor
      · simp only [seekStep, delCount, lisCount, toCount, List.countP_append, List.countP_nil]
        simp only [delCount, lisCount, toCount] at hd h1
        omega
      · intro hi
        simp only [seekStep] at hi
        obtain ⟨hdd, hl, ht⟩ := h2 hi
        simp only [seekStep, delCount, lisCount, toCount, List.countP_append, List.countP_nil]
        simp only [delCount, lisCount, toCount] at hd hdd hl ht
        exact ⟨by omega, trivial, ht⟩
  | fireTimeout id2 =>
      simp only [seekStep]
      cases hfind : s.timeouts.find? (fun q => q.1 = id2) with
      | none => exact ⟨h1, h2⟩
      | some q =>
          have hmem : q ∈ s.timeouts := List.mem_of_find?_eq_some hfind
          have hq1 : q.1 = id2 := by
            have hp := List.find?_some hfind
            simpa using hp
          have hpos : 0 < toCount id2 s.timeouts := by
            rw [toCount, List.countP_pos_iff]
            exact ⟨q, hmem, by simp [hq1]⟩
          have hcap := captureFrame_tagged_delCount env q.2.1 time s.canvas id2 i
          have hfl := countP_fst_filter_ne Prod.fst i id2 s.listeners
          have hft := countP_fst_filter_ne Prod.fst i id2 s.timeouts
          constructor
          · by_cases hii : i = id2
            · rw [if_pos hii] at hfl hft
              rw [if_pos hii.symm] at hcap
              rw [← hii] at hpos
              simp only [delCount, lisCount, toCount, List.countP_append] at h1 hpos hcap ⊢
              rw [hfl, hft]
              omega
            · have hni : ¬ id2 = i := fun hEq => hii hEq.symm
              rw [if_neg hni] at hcap
              rw [if_neg hii] at hfl hft
              simp only [delCount, lisCount, toCount, List.countP_append] at h1 hcap ⊢
              rw [hfl, hft]
              omega
          · intro hi
            obtain ⟨hdd, hl, ht⟩ := h2 hi
            have hii : ¬ i = id2 := by
              intro hEq
              rw [hEq] at ht
              omega
            have hni : ¬ id2 = i := fun hEq => hii hEq.symm
            rw [if_neg hni] at hcap
            rw [if_neg hii] at hfl hft
            simp only [delCount, lisCount, toCount, List.countP_append] at hcap hdd hl ht ⊢
            rw [hfl, hft]
            omega

/-- Claim C1, amended.  `handleSliderChange` has no
`requestId` / `lastAppliedRequestId` supersession check, so the true per-request
guarantee is only a bound: over every sequence of slider-change, `seeked` and
fallback-timeout events, each request produces at most TWO delivered captures —
one from its one-shot `seeked` listener and one from its never-cleared 500 ms
fallback timeout — and captures of superseded (older) requests are delivered
like any other (see the counterexample). -/
theorem C1_amended (env : CaptureEnv) (t0 dur : ℚ) (tr : List TimedEvent) (i : Nat) :
    delCount i (seekRun env t0 dur tr).delivered ≤ 2 := by
  have hinit : ReqBound i (initSession t0 dur) := by
    constructor
    · simp [delCount, lisCount, toCount, initSession]
    · intro _
      simp [delCount, lisCount, toCount, initSession]
  have h := foldl_preserves (seekStep env) (ReqBound i)
    (fun s e hs => seekStep_reqBound env i s e hs) tr (initSession t0 dur) hinit
  have h1 := h.1
  simp only [seekRun]
  omega

/-- Claim C1, counterexample.  Scenario: request `t = 4` at time 0, request
`t = 7` at time 1 (superseding the first), the decoder fires `seeked` at
time 2, and both never-cleared fallback timeouts fire at their due times.  The
code delivers FOUR captures, `[4, 7, 4, 7]` — request 0, although superseded
by request 1 before any of its captures fired, has its stale capture delivered
twice (once by its `seeked` listener, once by its fallback timeout).  The
claim says each request produces at most one delivered capture and that a
capture of a superseded request is never delivered; there is no
`requestId` / `lastAppliedRequestId` check anywhere in `handleSliderChange`. -/
theorem C1_counterexample :
    ((seekRun okEnv 0 30 [⟨0, .request 4⟩, ⟨1, .request 7⟩, ⟨2, .seeked⟩,
        ⟨500, .fireTimeout 0⟩, ⟨501, .fireTimeout 1⟩]).delivered.map Delivery.timestamp
      = [4, 7, 4, 7])
    ∧ delCount 0 (seekRun okEnv 0 30 [⟨0, .request 4⟩, ⟨1, .request 7⟩, ⟨2, .seeked⟩,
        ⟨500, .fireTimeout 0⟩, ⟨501, .fireTimeout 1⟩]).delivered = 2 := by
  decide

/-- Claim C2, evaluation at the failing input.  A single request (`t = 1` at
time 0) whose `seeked` notification fires at time 1/10, well before the 500 ms
fallback: the listener captures and removes only itself, and the fallback
timeout — which nothing ever clears (`handleSliderChange` never calls
`clearTimeout`, source lines 137-140) — fires anyway and captures a second
time.  Two captures are delivered for the one request, contradicting the
claimed mutual cancellation ("never two"). -/
theorem C2_code_bug_eval :
    delCount 0 (seekRun okEnv 0 30 [⟨0, .request 1⟩, ⟨1/10, .seeked⟩,
      ⟨500, .fireTimeout 0⟩]).delivered = 2
    ∧ ((seekRun okEnv 0 30 [⟨0, .request 1⟩, ⟨1/10, .seeked⟩,
      ⟨500, .fireTimeout 0⟩]).delivered.map Delivery.timestamp = [1, 1]) := by
  decide

/-- Claim C3, counterexample.  Two immediate `requestSeek(5)` calls with no
intervening request, `seeked` never fires, both fallback timeouts fire: TWO
`FrameResult`s are delivered (both with timestamp 5), not exactly one — the
first request is not suppressed, because the code has no supersession
mechanism. -/
theorem C3_counterexample :
    ((seekRun okEnv 0 30 [⟨0, .request 5⟩, ⟨0, .request 5⟩,
        ⟨500, .fireTimeout 0⟩, ⟨500, .fireTimeout 1⟩]).delivered.map Delivery.timestamp
      = [5, 5])
    ∧ ¬ (seekRun okEnv 0 30 [⟨0, .request 5⟩, ⟨0, .request 5⟩,
        ⟨500, .fireTimeout 0⟩, ⟨500, .fireTimeout 1⟩]).delivered.length = 1 := by
  decide

/-- Claim C3, amended.  Calling `requestSeek(t)` twice in immediate succession
with no intervening request and no `seeked` signal yields exactly TWO delivered
`FrameResult`s, both with `timestampSeconds = t` — one from each request's
500 ms fallback timeout; neither request is suppressed. -/
theorem C3_amended (t : ℚ) :
    ((seekRun okEnv 0 30 [⟨0, .request t⟩, ⟨0, .request t⟩,
        ⟨500, .fireTimeout 0⟩, ⟨500, .fireTimeout 1⟩]).delivered.map Delivery.timestamp)
      = [t, t] := by
  rfl

/-- Claim C4, counterexample.  `handleSliderChange` applies
`parseFloat(e.target.value)` to `currentTime` without any clamping (source
lines 121-122): a request of `-5` leaves `currentTime = -5`, not `0`, and a
request of `999` (duration 30) leaves `currentTime = 999`, not `30`. -/
theorem C4_counterexample :
    ((seekRun okEnv 0 30 [⟨0, .request (-5)⟩]).currentTime = -5 ∧ ¬ ((-5 : ℚ) = 0))
    ∧ ((seekRun okEnv 0 30 [⟨0, .request 999⟩]).currentTime = 999 ∧ ¬ ((999 : ℚ) = 30)) := by
  decide

/-- Claim C7, counterexample.  With `selectedTimestamp = 999` and a video of
duration 30, `handleLoadedMetadata` uses `selectedTimestamp ?? 0` with no
clamping (source line 58): the first capture is delivered at timestamp 999,
which is not in `[0, 30]`, and `currentTime` is left at 999. -/
theorem C7_counterexample :
    (loadRun okEnv (some 999) true [.loadedmetadata 30, .initialCapture]).delivered = [999]
    ∧ (loadRun okEnv (some 999) true [.loadedmetadata 30, .initialCapture]).currentTime = 999
    ∧ ¬ ((999 : ℚ) ≤ 30) := by
  decide

/-- Claim C9, counterexample.  Two successful captures (two requests, each
resolved by its fallback timeout) execute the dimension assignments
`c.width = v.videoWidth; c.height = v.videoHeight` TWICE — the code resizes
the canvas on every capture (source lines 108-109), not only on the first. -/
theorem C9_counterexample :
    (seekRun okEnv 0 30 [⟨0, .request 2⟩, ⟨500, .fireTimeout 0⟩,
      ⟨600, .request 3⟩, ⟨1100, .fireTimeout 1⟩]).canvas.resizes = 2
    ∧ (seekRun okEnv 0 30 [⟨0, .request 2⟩, ⟨500, .fireTimeout 0⟩,
      ⟨600, .request 3⟩, ⟨1100, .fireTimeout 1⟩]).delivered.length = 2
    ∧ ¬ (2 = 1) := by
  decide

/-- Without a rendering context a `seeked` dispatch does nothing: no listener's
capture call resizes the canvas or delivers anything. -/
theorem dispatchSeeked_noCtx (env : CaptureEnv) (now : ℚ) (hctx : env.ctxAvailable = false) :
    ∀ (ls : List (Nat × ℚ)) (c : CanvasState), dispatchSeeked env now ls c = (c, []) := by
  intro ls
  induction ls with
  | nil => intro c; rfl
  | cons l rest ih =>
      intro c
      have hc : captureFrame env l.2 c = (c, []) := by
        rw [captureFrame_eq, hctx]
        simp
      simp only [dispatchSeeked, hc, ih]
      simp

/-- Claim C4, amended.  `handleSliderChange` applies the parsed slider value to
`currentTime` without clamping; the invariant `0 ≤ currentTime ≤ duration`
therefore holds exactly when every issued request's timestamp already lies in
`[0, duration]` — which the presentational range control (min 0, max duration)
guarantees for values the UI can produce — and the initial position does. -/
theorem C4_amended (env : CaptureEnv) (t0 dur : ℚ) (tr : List TimedEvent)
    (h0 : 0 ≤ t0) (h1 : t0 ≤ dur)
    (hreq : ∀ e ∈ tr, ∀ t, e.ev = SeekEvent.request t → 0 ≤ t ∧ t ≤ dur) :
    0 ≤ (seekRun env t0 dur tr).currentTime ∧ (seekRun env t0 dur tr).currentTime ≤ dur := by
  simp only [seekRun]
  refine foldl_preserves_of_all (seekStep env)
    (fun s => 0 ≤ s.currentTime ∧ s.currentTime ≤ dur)
    (fun e => ∀ t, e.ev = SeekEvent.request t → 0 ≤ t ∧ t ≤ dur)
    ?_ tr hreq (initSession t0 dur) ⟨h0, h1⟩
  intro s e hQ hP
  obtain ⟨time, ev⟩ := e
  cases ev with
  | request t => exact hQ t rfl
  | seeked => exact hP
  | fireTimeout id =>
      simp only [seekStep]
      cases s.timeouts.find? (fun q => q.1 = id) with
      | none => exact hP
      | some q => exact hP

/-- Claim C4, witness: a concrete in-range request on a duration-30 session. -/
theorem C4_amended_witness :
    0 ≤ (seekRun okEnv 0 30 [⟨0, .request 7⟩]).currentTime
    ∧ (seekRun okEnv 0 30 [⟨0, .request 7⟩]).currentTime ≤ 30 :=
  C4_amended okEnv 0 30 [⟨0, .request 7⟩] (by norm_num) (by norm_num)
    (by
      intro e he t het
      rw [List.mem_singleton] at he
      subst he
      injection het with h
      subst h
      norm_num)

/-- Claim C8.  A capture failure — `canvas.getContext('2d')` returning null —
is only reported (`console.error`): no step of the seek machine run in such an
environment changes the status fields `error` and `loading`, delivers anything
through `onFrameSelect`, or touches the canvas, so the session does not enter
the error state and the next request is free to try again; and no exception
crosses the callback boundary (the `try` body returns before the callback is
reached and reports no exception). -/
theorem C8_capture_error (env : CaptureEnv) (s : SessionState) (e : TimedEvent) (t : ℚ)
    (hctx : env.ctxAvailable = false) :
    (seekStep env s e).error = s.error
    ∧ (seekStep env s e).loading = s.loading
    ∧ (seekStep env s e).delivered = s.delivered
    ∧ (seekStep env s e).canvas = s.canvas
    ∧ (captureFrameTry env t s.canvas).2.2 = none := by
  have hcf : ∀ (t2 : ℚ) (c : CanvasState), captureFrame env t2 c = (c, []) := by
    intro t2 c
    rw [captureFrame_eq, hctx]
    simp
  have htry : (captureFrameTry env t s.canvas).2.2 = none := by
    simp [captureFrameTry, hctx]
  obtain ⟨time, ev⟩ := e
  cases ev with
  | request t2 => exact ⟨rfl, rfl, rfl, rfl, htry⟩
  | seeked =>
      have hd := dispatchSeeked_noCtx env time hctx s.listeners s.canvas
      simp [seekStep, hd, htry]
  | fireTimeout id =>
      simp only [seekStep]
      cases s.timeouts.find? (fun q => q.1 = id) with
      | none => exact ⟨rfl, rfl, rfl, rfl, htry⟩
      | some q => simp [hcf, htry]

/-- Claim C8, witness: a `seeked` dispatch in a context-less environment. -/
theorem C8_capture_error_witness :
    (seekStep noCtxEnv (initSession 0 30) ⟨0, .seeked⟩).error = (initSession 0 30).error
    ∧ (seekStep noCtxEnv (initSession 0 30) ⟨0, .seeked⟩).loading = (initSession 0 30).loading
    ∧ (seekStep noCtxEnv (initSession 0 30) ⟨0, .seeked⟩).delivered
        = (initSession 0 30).delivered
    ∧ (seekStep noCtxEnv (initSession 0 30) ⟨0, .seeked⟩).canvas = (initSession 0 30).canvas
    ∧ (captureFrameTry noCtxEnv 5 (initSession 0 30).canvas).2.2 = none :=
  C8_capture_error noCtxEnv (initSession 0 30) ⟨0, .seeked⟩ 5 rfl

/-- A `seeked` dispatch behaves identically whether or not the caller's
callback throws: the exception is swallowed inside each capture call. -/
theorem dispatchSeeked_throw_agnostic (env : CaptureEnv) (now : ℚ) :
    ∀ (ls : List (Nat × ℚ)) (c : CanvasState),
      dispatchSeeked env now ls c = dispatchSeeked (noThrowEnv env) now ls c := by
  intro ls
  induction ls with
  | nil => intro c; rfl
  | cons l rest ih =>
      intro c
      have hcf : captureFrame env l.2 c = captureFrame (noThrowEnv env) l.2 c := by
        rw [captureFrame_eq, captureFrame_eq]
        simp [noThrowEnv]
      simp only [dispatchSeeked, hcf, ih]

/-- Claim C10.  When `onFrameSelect` throws during a capture, the exception
really escapes the `try` body (after the callback was invoked once), but
`captureFrame`'s `catch` swallows it: the capturer's observable result — and
hence every step of the seek machine — is identical to the non-throwing run,
so nothing propagates to the seek/slider handler, and the capture-bearing
`seeked` step leaves `error`, `loading`, `currentTime` and `duration`
untouched. -/
theorem C10_callback_throw (env : CaptureEnv) (s : SessionState) (e : TimedEvent)
    (t : ℚ) (c : CanvasState)
    (hthrow : env.callbackThrows = true) (hctx : env.ctxAvailable = true) :
    (captureFrameTry env t c).2.2 = some "onFrameSelect threw"
    ∧ (captureFrameTry env t c).2.1 = [t]
    ∧ captureFrame env t c = captureFrame (noThrowEnv env) t c
    ∧ seekStep env s e = seekStep (noThrowEnv env) s e
    ∧ (seekStep env s ⟨e.time, .seeked⟩).error = s.error
    ∧ (seekStep env s ⟨e.time, .seeked⟩).loading = s.loading
    ∧ (seekStep env s ⟨e.time, .seeked⟩).currentTime = s.currentTime
    ∧ (seekStep env s ⟨e.time, .seeked⟩).duration = s.duration := by
  have hcf : ∀ (t2 : ℚ) (c2 : CanvasState),
      captureFrame env t2 c2 = captureFrame (noThrowEnv env) t2 c2 := by
    intro t2 c2
    rw [captureFrame_eq, captureFrame_eq]
    simp [noThrowEnv]
  refine ⟨by simp [captureFrameTry, hctx, hthrow], by simp [captureFrameTry, hctx, hthrow],
    hcf t c, ?_, rfl, rfl, rfl, rfl⟩
  obtain ⟨time, ev⟩ := e
  cases ev with
  | request t2 => rfl
  | seeked =>
      simp only [seekStep, dispatchSeeked_throw_agnostic env time s.listeners s.canvas]
  | fireTimeout id =>
      simp only [seekStep, hcf]

/-- Claim C10, witness: a throwing callback during a `seeked` dispatch. -/
theorem C10_callback_throw_witness :
    (captureFrameTry throwEnv 5 initCanvas).2.2 = some "onFrameSelect threw"
    ∧ (captureFrameTry throwEnv 5 initCanvas).2.1 = [5]
    ∧ captureFrame throwEnv 5 initCanvas = captureFrame (noThrowEnv throwEnv) 5 initCanvas
    ∧ seekStep throwEnv (initSession 0 30) ⟨0, .seeked⟩
        = seekStep (noThrowEnv throwEnv) (initSession 0 30) ⟨0, .seeked⟩
    ∧ (seekStep throwEnv (initSession 0 30) ⟨(⟨0, .seeked⟩ : TimedEvent).time, .seeked⟩).error
        = (initSession 0 30).error
    ∧ (seekStep throwEnv (initSession 0 30) ⟨(⟨0, .seeked⟩ : TimedEvent).time, .seeked⟩).loading
        = (initSession 0 30).loading
    ∧ (seekStep throwEnv (initSession 0 30)
        ⟨(⟨0, .seeked⟩ : TimedEvent).time, .seeked⟩).currentTime
        = (initSession 0 30).currentTime
    ∧ (seekStep throwEnv (initSession 0 30) ⟨(⟨0, .seeked⟩ : TimedEvent).time, .seeked⟩).duration
        = (initSession 0 30).duration :=
  C10_callback_throw throwEnv (initSession 0 30) ⟨0, .seeked⟩ 5 initCanvas rfl rfl

/-- Any step of the load machine preserves the error bookkeeping. -/
theorem loadStep_loadErr (env : CaptureEnv) (sel : Option ℚ) (cl : Bool)
    (s : LoadState) (e : LoadEvent) (h : LoadErr s) : LoadErr (loadStep env sel cl s e) := by
  obtain ⟨h1, h2, h3⟩ := h
  cases e with
  | loadedmetadata dur =>
      simp only [loadStep]
      split
      · exact ⟨h1, h2, h3⟩
      · exact ⟨h1, h2, h3⟩
  | errorEvent =>
      simp only [loadStep]
      split
      · exact ⟨h1, h2, h3⟩
      · exact ⟨Or.inr (Or.inl rfl), fun _ => by simp, fun _ => rfl⟩
  | initialCapture =>
      simp only [loadStep]
      cases s.pendingInitialCapture with
      | none => exact ⟨h1, h2, h3⟩
      | some t => exact ⟨h1, h2, fun _ => rfl⟩
  | loadTimeout =>
      simp only [loadStep]
      split
      · exact ⟨Or.inr (Or.inr rfl), fun _ => by simp, fun _ => rfl⟩
      · exact ⟨h1, h2, h3⟩

/-- Once the load error is set, no later event clears it. -/
theorem loadStep_error_mono (env : CaptureEnv) (sel : Option ℚ) (cl : Bool)
    (s : LoadState) (e : LoadEvent) (h : s.error ≠ none) :
    (loadStep env sel cl s e).error ≠ none := by
  cases e with
  | loadedmetadata dur =>
      simp only [loadStep]
      split
      · exact h
      · exact h
  | errorEvent =>
      simp only [loadStep]
      split
      · exact h
      · simp
  | initialCapture =>
      simp only [loadStep]
      cases s.pendingInitialCapture with
      | none => exact h
      | some t => exact h
  | loadTimeout =>
      simp only [loadStep]
      split
      · simp
      · exact h

/-- Load events other than `loadedmetadata` never schedule the initial capture
and never deliver anything. -/
theorem loadStep_noCapture (env : CaptureEnv) (sel : Option ℚ) (cl : Bool)
    (s : LoadState) (e : LoadEvent) (hQ : ∀ d, e ≠ LoadEvent.loadedmetadata d)
    (h : LoadNoCapture s) : LoadNoCapture (loadStep env sel cl s e) := by
  obtain ⟨hp, hd⟩ := h
  cases e with
  | loadedmetadata d => exact absurd rfl (hQ d)
  | errorEvent =>
      simp only [loadStep]
      split
      · exact ⟨hp, hd⟩
      · exact ⟨hp, hd⟩
  | initialCapture =>
      simp only [loadStep, hp]
      exact ⟨hp, hd⟩
  | loadTimeout =>
      simp only [loadStep]
      split
      · exact ⟨hp, hd⟩
      · exact ⟨hp, hd⟩

/-- If the `error` event or the 10 s fallback occurs anywhere in the trace, the
final error field is set (on a first load, whose effect closure captured
`loading = true`). -/
theorem loadRun_error_of_failure (env : CaptureEnv) (sel : Option ℚ) :
    ∀ (tr : List LoadEvent) (s : LoadState), LoadErr s →
      (LoadEvent.errorEvent ∈ tr ∨ LoadEvent.loadTimeout ∈ tr) →
      (tr.foldl (loadStep env sel true) s).error ≠ none := by
  intro tr
  induction tr with
  | nil =>
      intro s _ hmem
      rcases hmem with h | h <;> simp at h
  | cons e tr ih =>
      intro s hs hmem
      rw [List.foldl_cons]
      by_cases he1 : e = LoadEvent.errorEvent
      · subst he1
        have h1 : (loadStep env sel true s .errorEvent).error ≠ none := by
          simp only [loadStep]
          split
          · rename_i hf
            exact hs.2.1 hf
          · simp
        exact foldl_preserves (loadStep env sel true) (fun st => st.error ≠ none)
          (fun a b hb => loadStep_error_mono env sel true a b hb) tr _ h1
      · by_cases he2 : e = LoadEvent.loadTimeout
        · subst he2
          have h1 : (loadStep env sel true s .loadTimeout).error ≠ none := by
            simp [loadStep]
          exact foldl_preserves (loadStep env sel true) (fun st => st.error ≠ none)
            (fun a b hb => loadStep_error_mono env sel true a b hb) tr _ h1
        · have hmem2 : LoadEvent.errorEvent ∈ tr ∨ LoadEvent.loadTimeout ∈ tr := by
            rcases hmem with h | h
            · rcases List.mem_cons.mp h with h | h
              · exact absurd h.symm he1
              · exact Or.inl h
            · rcases List.mem_cons.mp h with h | h
              · exact absurd h.symm he2
              · exact Or.inr h
          exact ih (loadStep env sel true s e) (loadStep_loadErr env sel true s e hs) hmem2

/-- The partial guarantee the load path does provide: on a FIRST load (whose
effect closure captured `loading = true`), if the decoder rejects the blob
(the `error` event fires) or no metadata arrives before the 10 s fallback, the
session ends with a set, human-readable error message, loading over, and zero
`onFrameSelect` invocations for that file — the initial capture is only ever
scheduled by the metadata handler.  On effect re-runs the fallback arm fails:
see `C5_code_bug_eval`. -/
theorem loadRun_first_load_failure (env : CaptureEnv) (sel : Option ℚ) (tr : List LoadEvent)
    (hnometa : ∀ e ∈ tr, ∀ d, e ≠ LoadEvent.loadedmetadata d)
    (hfail : LoadEvent.errorEvent ∈ tr ∨ LoadEvent.loadTimeout ∈ tr) :
    (∃ m, (loadRun env sel true tr).error = some m ∧ m ≠ "")
    ∧ (loadRun env sel true tr).loading = false
    ∧ (loadRun env sel true tr).delivered = [] := by
  have hinitErr : LoadErr (initLoad sel) := by
    refine ⟨Or.inl rfl, ?_, ?_⟩
    · intro hf
      simp [initLoad] at hf
    · intro hne
      simp [initLoad] at hne
  have hErr : LoadErr (loadRun env sel true tr) :=
    foldl_preserves (loadStep env sel true) LoadErr
      (fun a b hb => loadStep_loadErr env sel true a b hb) tr (initLoad sel) hinitErr
  have hNC : LoadNoCapture (loadRun env sel true tr) :=
    foldl_preserves_of_all (loadStep env sel true) LoadNoCapture
      (fun e => ∀ d, e ≠ LoadEvent.loadedmetadata d)
      (fun a b hb hp => loadStep_noCapture env sel true a b hb hp) tr hnometa
      (initLoad sel) ⟨rfl, rfl⟩
  have hne : (loadRun env sel true tr).error ≠ none :=
    loadRun_error_of_failure env sel tr (initLoad sel) hinitErr hfail
  rcases hErr.1 with h | h | h
  · exact absurd h hne
  · exact ⟨⟨loadFailMsg, h, by decide⟩, hErr.2.2 hne, hNC.2⟩
  · exact ⟨⟨loadTimeoutMsg, h, by decide⟩, hErr.2.2 hne, hNC.2⟩

/-- Claim C5, evaluation at the failing input.  The 10 s fallback's guard
reads the closure-captured `loading`, not the current value (source lines
79-84): the callback's `loading` is the state of the render in which the
initialisation effect ran.  On an effect re-run — a file swap after a prior
load had finished, so that render's `loading` was `false` — the guard is dead.
With a decoder that then never fires `loadedmetadata` or `error`, the 10 s
fallback fires but sets nothing: `error` stays `none` and `loading` stays
`true` forever, so the session never reaches the Error state the claim
requires for a blob with no metadata within the bounded wait.  (The
zero-deliveries part does hold, and the decoder-reject arm and first loads
behave as claimed: `loadRun_first_load_failure`.) -/
theorem C5_code_bug_eval :
    (loadRun okEnv none false [.loadTimeout]).error = none
    ∧ (loadRun okEnv none false [.loadTimeout]).loading = true
    ∧ (loadRun okEnv none false [.loadTimeout]).delivered = [] := by
  decide

/-- Every step keeps pending-timeout ids below `nextId`. -/
theorem seekStep_idsBounded (env : CaptureEnv) (s : SessionState) (e : TimedEvent)
    (h : IdsBounded s) : IdsBounded (seekStep env s e) := by
  obtain ⟨time, ev⟩ := e
  cases ev with
  | request t =>
      intro q hq
      rcases List.mem_append.mp hq with hq | hq
      · exact Nat.lt_succ_of_lt (h q hq)
      · rw [List.mem_singleton] at hq
        subst hq
        exact Nat.lt_succ_self _
  | seeked => exact h
  | fireTimeout id =>
      simp only [seekStep]
      cases s.timeouts.find? (fun q => q.1 = id) with
      | none => exact h
      | some q2 =>
          intro q hq
          exact h q (List.mem_of_mem_filter hq)

/-- A request whose own timeout never fires keeps that timeout pending and
unique through any other step. -/
theorem seekStep_timeoutPending (env : CaptureEnv) (i : Nat) (t dueAt : ℚ)
    (s : SessionState) (e : TimedEvent) (hQ : e.ev ≠ SeekEvent.fireTimeout i)
    (h : TimeoutPending i t dueAt s) : TimeoutPending i t dueAt (seekStep env s e) := by
  obtain ⟨hmem, huniq, hlt⟩ := h
  obtain ⟨time, ev⟩ := e
  cases ev with
  | request t2 =>
      refine ⟨List.mem_append_left _ hmem, ?_, Nat.lt_succ_of_lt hlt⟩
      intro q hq hq1
      rcases List.mem_append.mp hq with hq | hq
      · exact huniq q hq hq1
      · rw [List.mem_singleton] at hq
        subst hq
        exact absurd hq1 (by omega)
  | seeked => exact ⟨hmem, huniq, hlt⟩
  | fireTimeout j =>
      have hji : j ≠ i := fun hEq => hQ (by rw [hEq])
      simp only [seekStep]
      cases s.timeouts.find? (fun q => q.1 = j) with
      | none => exact ⟨hmem, huniq, hlt⟩
      | some q2 =>
          refine ⟨?_, ?_, hlt⟩
          · rw [List.mem_filter]
            refine ⟨hmem, ?_⟩
            simpa using Ne.symm hji
          · intro q hq hq1
            exact huniq q (List.mem_of_mem_filter hq) hq1

/-- `handleSliderChange` leaves its own fresh fallback timeout pending and
unique. -/
theorem seekStep_request_pending (env : CaptureEnv) (s : SessionState) (time t : ℚ)
    (hb : IdsBounded s) :
    TimeoutPending s.nextId t (time + 500) (seekStep env s ⟨time, .request t⟩) := by
  refine ⟨List.mem_append_right _ (List.mem_singleton.mpr rfl), ?_, Nat.lt_succ_self _⟩
  intro q hq hq1
  rcases List.mem_append.mp hq with hq | hq
  · exact absurd hq1 (Nat.ne_of_lt (hb q hq))
  · exact List.mem_singleton.mp hq

/-- Firing a pending, unique fallback timeout delivers the capture for its
request at the firing time. -/
theorem seekStep_fire_pending (env : CaptureEnv) (s : SessionState) (i : Nat)
    (t dueAt now : ℚ) (hctx : env.ctxAvailable = true)
    (h : TimeoutPending i t dueAt s) :
    (⟨i, now, t⟩ : Delivery) ∈ (seekStep env s ⟨now, .fireTimeout i⟩).delivered := by
  obtain ⟨hmem, huniq, hlt⟩ := h
  have hfind : s.timeouts.find? (fun q => q.1 = i) = some (i, t, dueAt) := by
    cases hf : s.timeouts.find? (fun q => q.1 = i) with
    | none =>
        rw [List.find?_eq_none] at hf
        exact absurd (by simp) (hf _ hmem)
    | some q =>
        have hq1 : q.1 = i := by
          have hp := List.find?_some hf
          simpa using hp
        rw [huniq q (List.mem_of_find?_eq_some hf) hq1]
  simp only [seekStep, hfind, captureFrame_ctx env t s.canvas hctx]
  simp

/-- Claim C6.  If the `seeked` notification never fires after a request (and
nothing else fires that request's own timeout early), the capture for that
request is nevertheless delivered — by the fallback timeout, at exactly 500 ms
after the request, with the request's own timestamp — whatever other requests
and timeout firings happen in between. -/
theorem C6_timeout_fallback (env : CaptureEnv) (t0 dur : ℚ) (pre : List TimedEvent)
    (s t : ℚ) (mid : List TimedEvent)
    (hctx : env.ctxAvailable = true)
    (hnoseek : ∀ e ∈ mid, e.ev ≠ SeekEvent.seeked)
    (hnofire : ∀ e ∈ mid, e.ev ≠ SeekEvent.fireTimeout (seekRun env t0 dur pre).nextId) :
    (⟨(seekRun env t0 dur pre).nextId, s + 500, t⟩ : Delivery)
      ∈ (seekRun env t0 dur (pre ++ ⟨s, .request t⟩ :: mid
          ++ [⟨s + 500, .fireTimeout (seekRun env t0 dur pre).nextId⟩])).delivered := by
  have hb : IdsBounded (seekRun env t0 dur pre) := by
    refine foldl_preserves (seekStep env) IdsBounded
      (fun a b hb2 => seekStep_idsBounded env a b hb2) pre (initSession t0 dur) ?_
    intro q hq
    simp [initSession] at hq
  have hp1 : TimeoutPending (seekRun env t0 dur pre).nextId t (s + 500)
      (seekStep env (seekRun env t0 dur pre) ⟨s, .request t⟩) :=
    seekStep_request_pending env (seekRun env t0 dur pre) s t hb
  have hp2 : TimeoutPending (seekRun env t0 dur pre).nextId t (s + 500)
      (mid.foldl (seekStep env) (seekStep env (seekRun env t0 dur pre) ⟨s, .request t⟩)) :=
    foldl_preserves_of_all (seekStep env)
      (TimeoutPending (seekRun env t0 dur pre).nextId t (s + 500))
      (fun e => e.ev ≠ SeekEvent.fireTimeout (seekRun env t0 dur pre).nextId)
      (fun a b hb2 hp =>
        seekStep_timeoutPending env (seekRun env t0 dur pre).nextId t (s + 500) a b hb2 hp)
      mid hnofire (seekStep env (seekRun env t0 dur pre) ⟨s, .request t⟩) hp1
  have hrun : seekRun env t0 dur (pre ++ ⟨s, .request t⟩ :: mid
      ++ [⟨s + 500, .fireTimeout (seekRun env t0 dur pre).nextId⟩])
      = seekStep env
          (mid.foldl (seekStep env) (seekStep env (seekRun env t0 dur pre) ⟨s, .request t⟩))
          ⟨s + 500, .fireTimeout (seekRun env t0 dur pre).nextId⟩ := by
    simp only [seekRun, List.foldl_append, List.foldl_cons, List.foldl_nil]
  rw [hrun]
  exact seekStep_fire_pending env _ (seekRun env t0 dur pre).nextId t (s + 500) (s + 500)
    hctx hp2

/-- Claim C6, witness: a single request at time 0 with no other event; its
fallback delivers at time 500. -/
theorem C6_timeout_fallback_witness :
    (⟨(seekRun okEnv 0 30 []).nextId, (0 : ℚ) + 500, 3⟩ : Delivery)
      ∈ (seekRun okEnv 0 30 ([] ++ ⟨0, .request 3⟩ :: []
          ++ [⟨(0 : ℚ) + 500, .fireTimeout (seekRun okEnv 0 30 []).nextId⟩])).delivered :=
  C6_timeout_fallback okEnv 0 30 [] 0 3 [] rfl
    (by
      intro e he
      simp at he)
    (by
      intro e he
      simp at he)

/-- Claim C7, amended.  On successful metadata load, `handleLoadedMetadata`
seeds the first capture from the optional `selectedTimestamp` — defaulting to 0
when absent but applied UNCLAMPED when present — records the duration, and the
100 ms timeout then performs the first capture at that timestamp (one
`onFrameSelect` invocation) and ends loading with no error (Ready). -/
theorem C7_amended (env : CaptureEnv) (sel : Option ℚ) (dur : ℚ)
    (hctx : env.ctxAvailable = true) :
    (loadRun env sel true [.loadedmetadata dur, .initialCapture]).delivered = [sel.getD 0]
    ∧ (loadRun env sel true [.loadedmetadata dur, .initialCapture]).currentTime = sel.getD 0
    ∧ (loadRun env sel true [.loadedmetadata dur, .initialCapture]).duration = dur
    ∧ (loadRun env sel true [.loadedmetadata dur, .initialCapture]).loading = false
    ∧ (loadRun env sel true [.loadedmetadata dur, .initialCapture]).error = none := by
  have hcf := captureFrame_ctx env (sel.getD 0) initCanvas hctx
  simp [loadRun, loadStep, initLoad, hcf]

/-- Claim C7, witness: `selectedTimestamp = 12` on a duration-30 video. -/
theorem C7_amended_witness :
    (loadRun okEnv (some 12) true [.loadedmetadata 30, .initialCapture]).delivered
        = [(some (12 : ℚ)).getD 0]
    ∧ (loadRun okEnv (some 12) true [.loadedmetadata 30, .initialCapture]).currentTime
        = (some (12 : ℚ)).getD 0
    ∧ (loadRun okEnv (some 12) true [.loadedmetadata 30, .initialCapture]).duration = 30
    ∧ (loadRun okEnv (some 12) true [.loadedmetadata 30, .initialCapture]).loading = false
    ∧ (loadRun okEnv (some 12) true [.loadedmetadata 30, .initialCapture]).error = none :=
  C7_amended okEnv (some 12) 30 rfl

/-- Canvas/delivery bookkeeping of a `seeked` dispatch: one dimension
assignment per delivery, native dimensions once anything was delivered, canvas
untouched when nothing was. -/
theorem dispatchSeeked_canvas (env : CaptureEnv) (now : ℚ) :
    ∀ (ls : List (Nat × ℚ)) (c : CanvasState),
      (dispatchSeeked env now ls c).1.resizes
          = c.resizes + (dispatchSeeked env now ls c).2.length
      ∧ ((dispatchSeeked env now ls c).2 ≠ [] →
          (dispatchSeeked env now ls c).1.width = env.videoWidth
          ∧ (dispatchSeeked env now ls c).1.height = env.videoHeight)
      ∧ ((dispatchSeeked env now ls c).2 = [] → (dispatchSeeked env now ls c).1 = c) := by
  intro ls
  induction ls with
  | nil =>
      intro c
      exact ⟨by simp [dispatchSeeked], by simp [dispatchSeeked], fun _ => rfl⟩
  | cons l rest ih =>
      intro c
      by_cases hctx : env.ctxAvailable = true
      · have hcf := captureFrame_ctx env l.2 c hctx
        obtain ⟨g1, g2, g3⟩ := ih (captureFrame env l.2 c).1
        refine ⟨?_, fun _ => ?_, fun hemp => ?_⟩
        · simp only [dispatchSeeked, List.length_append]
          rw [g1, hcf]
          simp
          omega
        · by_cases hout : (dispatchSeeked env now rest (captureFrame env l.2 c).1).2 = []
          · have hc := g3 hout
            constructor
            · show (dispatchSeeked env now rest (captureFrame env l.2 c).1).1.width
                  = env.videoWidth
              rw [hc, hcf]
            · show (dispatchSeeked env now rest (captureFrame env l.2 c).1).1.height
                  = env.videoHeight
              rw [hc, hcf]
          · exact g2 hout
        · exfalso
          rw [show (dispatchSeeked env now (l :: rest) c).2
              = (captureFrame env l.2 c).2.map (fun ts => (⟨l.1, now, ts⟩ : Delivery))
                ++ (dispatchSeeked env now rest (captureFrame env l.2 c).1).2 from rfl,
            hcf] at hemp
          simp at hemp
      · have hcfalse : env.ctxAvailable = false := by
          revert hctx
          cases env.ctxAvailable <;> simp
        have hcf := captureFrame_noCtx env l.2 c hcfalse
        obtain ⟨g1, g2, g3⟩ := ih (captureFrame env l.2 c).1
        rw [hcf] at g1 g2 g3
        refine ⟨?_, ?_, ?_⟩
        · simp only [dispatchSeeked, List.length_append]
          rw [hcf]
          simpa using g1
        · intro hne
          have : (dispatchSeeked env now rest c).2 ≠ [] := by
            intro hemp
            rw [show (dispatchSeeked env now (l :: rest) c).2
                = (captureFrame env l.2 c).2.map (fun ts => (⟨l.1, now, ts⟩ : Delivery))
                  ++ (dispatchSeeked env now rest (captureFrame env l.2 c).1).2 from rfl,
              hcf, hemp] at hne
            simp at hne
          obtain ⟨hw, hh⟩ := g2 this
          constructor
          · show (dispatchSeeked env now rest (captureFrame env l.2 c).1).1.width
                = env.videoWidth
            rw [hcf]
            exact hw
          · show (dispatchSeeked env now rest (captureFrame env l.2 c).1).1.height
                = env.videoHeight
            rw [hcf]
            exact hh
        · intro hemp
          rw [show (dispatchSeeked env now (l :: rest) c).2
              = (captureFrame env l.2 c).2.map (fun ts => (⟨l.1, now, ts⟩ : Delivery))
                ++ (dispatchSeeked env now rest (captureFrame env l.2 c).1).2 from rfl,
            hcf] at hemp
          simp at hemp
          show (dispatchSeeked env now rest (captureFrame env l.2 c).1).1 = c
          rw [hcf]
          exact g3 hemp

/-- Every step of the seek machine keeps the dimension-assignment count equal
to the delivery count and, once anything was delivered, the canvas at native
dimensions. -/
theorem seekStep_canvasSync (env : CaptureEnv) (s : SessionState) (e : TimedEvent)
    (h : CanvasSync env s) : CanvasSync env (seekStep env s e) := by
  obtain ⟨h1, h2⟩ := h
  obtain ⟨time, ev⟩ := e
  cases ev with
  | request t => exact ⟨h1, h2⟩
  | seeked =>
      obtain ⟨g1, g2, g3⟩ := dispatchSeeked_canvas env time s.listeners s.canvas
      constructor
      · show (dispatchSeeked env time s.listeners s.canvas).1.resizes
            = (s.delivered ++ (dispatchSeeked env time s.listeners s.canvas).2).length
        rw [List.length_append, g1, h1]
      · intro hne
        by_cases hout : (dispatchSeeked env time s.listeners s.canvas).2 = []
        · have hc := g3 hout
          show (dispatchSeeked env time s.listeners s.canvas).1.width = env.videoWidth
            ∧ (dispatchSeeked env time s.listeners s.canvas).1.height = env.videoHeight
          rw [hc]
          apply h2
          intro hdel
          rw [show ((seekStep env s ⟨time, .seeked⟩).delivered : List Delivery)
              = s.delivered ++ (dispatchSeeked env time s.listeners s.canvas).2 from rfl,
            hdel, hout] at hne
          simp at hne
        · exact g2 hout
  | fireTimeout id =>
      simp only [seekStep]
      cases s.timeouts.find? (fun q => q.1 = id) with
      | none => exact ⟨h1, h2⟩
      | some q =>
          by_cases hctx : env.ctxAvailable = true
          · have hcf := captureFrame_ctx env q.2.1 s.canvas hctx
            constructor
            · show (captureFrame env q.2.1 s.canvas).1.resizes
                  = (s.delivered ++ (captureFrame env q.2.1 s.canvas).2.map
                      (fun ts => (⟨id, time, ts⟩ : Delivery))).length
              rw [hcf]
              simp [h1]
            · intro hne2
              constructor
              · show (captureFrame env q.2.1 s.canvas).1.width = env.videoWidth
                rw [hcf]
              · show (captureFrame env q.2.1 s.canvas).1.height = env.videoHeight
                rw [hcf]
          · have hcfalse : env.ctxAvailable = false := by
              revert hctx
              cases env.ctxAvailable <;> simp
            have hcf := captureFrame_noCtx env q.2.1 s.canvas hcfalse
            constructor
            · show (captureFrame env q.2.1 s.canvas).1.resizes
                  = (s.delivered ++ (captureFrame env q.2.1 s.canvas).2.map
                      (fun ts => (⟨id, time, ts⟩ : Delivery))).length
              rw [hcf]
              simpa using h1
            · intro hne2
              replace hne2 : s.delivered
                  ++ (captureFrame env q.2.1 s.canvas).2.map
                    (fun ts => (⟨id, time, ts⟩ : Delivery)) ≠ [] := hne2
              rw [hcf] at hne2
              simp only [List.map_nil, List.append_nil] at hne2
              obtain ⟨hw, hh⟩ := h2 hne2
              constructor
              · show (captureFrame env q.2.1 s.canvas).1.width = env.videoWidth
                rw [hcf]
                exact hw
              · show (captureFrame env q.2.1 s.canvas).1.height = env.videoHeight
                rw [hcf]
                exact hh

/-- Claim C9, amended.  The canvas is resized to the source's native
dimensions on EVERY successful capture, not only the first: the dimension
assignments (source lines 108-109) have been executed exactly once per
delivered capture, and once at least one capture has been delivered the
canvas holds the native width and height (the repeated assignments rewrite
the same values, so the dimensions are unchanged in value after the first
capture even though the resize is re-executed). -/
theorem C9_amended (env : CaptureEnv) (t0 dur : ℚ) (tr : List TimedEvent) :
    (seekRun env t0 dur tr).canvas.resizes = (seekRun env t0 dur tr).delivered.length
    ∧ ((seekRun env t0 dur tr).delivered ≠ [] →
        (seekRun env t0 dur tr).canvas.width = env.videoWidth
        ∧ (seekRun env t0 dur tr).canvas.height = env.videoHeight) :=
  foldl_preserves (seekStep env) (CanvasSync env)
    (fun a b hb => seekStep_canvasSync env a b hb) tr (initSession t0 dur)
    ⟨rfl, fun hne => absurd rfl hne⟩

/-- Claim C9, witness: one delivered capture; the dimension assignments ran
once per delivery and the canvas took the native 640 x 360 dimensions. -/
theorem C9_amended_witness :
    (seekRun okEnv 0 30 [⟨0, .request 2⟩, ⟨500, .fireTimeout 0⟩]).canvas.resizes
        = (seekRun okEnv 0 30 [⟨0, .request 2⟩, ⟨500, .fireTimeout 0⟩]).delivered.length
    ∧ ((seekRun okEnv 0 30 [⟨0, .request 2⟩, ⟨500, .fireTimeout 0⟩]).canvas.width = 640
        ∧ (seekRun okEnv 0 30 [⟨0, .request 2⟩, ⟨500, .fireTimeout 0⟩]).canvas.height = 360) :=
  ⟨(C9_amended okEnv 0 30 [⟨0, .request 2⟩, ⟨500, .fireTimeout 0⟩]).1,
   (C9_amended okEnv 0 30 [⟨0, .request 2⟩, ⟨500, .fireTimeout 0⟩]).2 (by decide)⟩

end VideoFrameSelector
